import Mathlib

/-
Shallow embedding of the mini-s3 object store (store/store.go).

Objects are addressed by an identity (bucket, key) parsed from the URL
path; contents are byte sequences modelled as `List Nat` with every
element below 256. The filesystem under the store root is modelled as an
association list from identities to contents. The SHA-256 digest used
for ETags (crypto/sha256 in the source) is implemented concretely below
following FIPS 180-4, so digest strings evaluate on concrete inputs.
-/

set_option maxRecDepth 100000

namespace MiniS3

/-- Truncation to a 32-bit word, as performed implicitly by uint32
arithmetic in the hash implementation. -/
def w32 (n : Nat) : Nat := n % 4294967296

/-- Rotate a 32-bit word right by `n` bits. -/
def rotr (n x : Nat) : Nat := w32 ((x >>> n) ||| (x <<< (32 - n)))

/-- SHA-256 choice function. -/
def ch (x y z : Nat) : Nat := (x &&& y) ^^^ ((x ^^^ 4294967295) &&& z)

/-- SHA-256 majority function. -/
def maj (x y z : Nat) : Nat := (x &&& y) ^^^ (x &&& z) ^^^ (y &&& z)

/-- SHA-256 upper-case sigma 0. -/
def bigS0 (x : Nat) : Nat := rotr 2 x ^^^ rotr 13 x ^^^ rotr 22 x

/-- SHA-256 upper-case sigma 1. -/
def bigS1 (x : Nat) : Nat := rotr 6 x ^^^ rotr 11 x ^^^ rotr 25 x

/-- SHA-256 lower-case sigma 0. -/
def smallS0 (x : Nat) : Nat := rotr 7 x ^^^ rotr 18 x ^^^ (x >>> 3)

/-- SHA-256 lower-case sigma 1. -/
def smallS1 (x : Nat) : Nat := rotr 17 x ^^^ rotr 19 x ^^^ (x >>> 10)

/-- The 64 SHA-256 round constants. -/
def K : List Nat :=
  [0x428A2F98, 0x71374491, 0xB5C0FBCF, 0xE9B5DBA5, 0x3956C25B, 0x59F111F1, 0x923F82A4, 0xAB1C5ED5,
   0xD807AA98, 0x12835B01, 0x243185BE, 0x550C7DC3, 0x72BE5D74, 0x80DEB1FE, 0x9BDC06A7, 0xC19BF174,
   0xE49B69C1, 0xEFBE4786, 0x0FC19DC6, 0x240CA1CC, 0x2DE92C6F, 0x4A7484AA, 0x5CB0A9DC, 0x76F988DA,
   0x983E5152, 0xA831C66D, 0xB00327C8, 0xBF597FC7, 0xC6E00BF3, 0xD5A79147, 0x06CA6351, 0x14292967,
   0x27B70A85, 0x2E1B2138, 0x4D2C6DFC, 0x53380D13, 0x650A7354, 0x766A0ABB, 0x81C2C92E, 0x92722C85,
   0xA2BFE8A1, 0xA81A664B, 0xC24B8B70, 0xC76C51A3, 0xD192E819, 0xD6990624, 0xF40E3585, 0x106AA070,
   0x19A4C116, 0x1E376C08, 0x2748774C, 0x34B0BCB5, 0x391C0CB3, 0x4ED8AA4A, 0x5B9CCA4F, 0x682E6FF3,
   0x748F82EE, 0x78A5636F, 0x84C87814, 0x8CC70208, 0x90BEFFFA, 0xA4506CEB, 0xBEF9A3F7, 0xC67178F2]

/-- The eight 32-bit working variables of the SHA-256 state. -/
structure Hash8 where
  a : Nat
  b : Nat
  c : Nat
  d : Nat
  e : Nat
  f : Nat
  g : Nat
  h : Nat
deriving DecidableEq

/-- SHA-256 initial hash value. -/
def H0 : Hash8 :=
  ⟨0x6a09e667, 0xbb67ae85, 0x3c6ef372, 0xa54ff53a, 0x510e527f, 0x9b05688c, 0x1f83d9ab, 0x5be0cd19⟩

/-- Append the next word of the SHA-256 message schedule. -/
def scheduleStep (ws : List Nat) : List Nat :=
  let i := ws.length
  ws ++ [w32 (smallS1 ws[i - 2]! + ws[i - 7]! + smallS0 ws[i - 15]! + ws[i - 16]!)]

/-- Iterate the schedule extension `n` times. -/
def extendW : Nat → List Nat → List Nat
  | 0, ws => ws
  | n + 1, ws => extendW n (scheduleStep ws)

/-- One SHA-256 compression round. -/
def round (st : Hash8) (k w : Nat) : Hash8 :=
  let t1 := w32 (st.h + bigS1 st.e + ch st.e st.f st.g + k + w)
  let t2 := w32 (bigS0 st.a + maj st.a st.b st.c)
  ⟨w32 (t1 + t2), st.a, st.b, st.c, w32 (st.d + t1), st.e, st.f, st.g⟩

/-- Group four big-endian bytes into one 32-bit word, across a list. -/
def bytesToWords : List Nat → List Nat
  | b0 :: b1 :: b2 :: b3 :: rest =>
      (((b0 * 256 + b1) * 256 + b2) * 256 + b3) :: bytesToWords rest
  | _ => []

/-- Compress one 64-byte block into the running hash state. -/
def compressBlock (st : Hash8) (blockBytes : List Nat) : Hash8 :=
  let ws := extendW 48 (bytesToWords blockBytes)
  let fin := (K.zip ws).foldl (fun s kw => round s kw.1 kw.2) st
  ⟨w32 (st.a + fin.a), w32 (st.b + fin.b), w32 (st.c + fin.c), w32 (st.d + fin.d),
   w32 (st.e + fin.e), w32 (st.f + fin.f), w32 (st.g + fin.g), w32 (st.h + fin.h)⟩

/-- The eight big-endian bytes of the 64-bit message bit length. -/
def lenBytes (len : Nat) : List Nat :=
  let bits := len * 8
  [(bits >>> 56) % 256, (bits >>> 48) % 256, (bits >>> 40) % 256, (bits >>> 32) % 256,
   (bits >>> 24) % 256, (bits >>> 16) % 256, (bits >>> 8) % 256, bits % 256]

/-- SHA-256 padding: a 0x80 byte, zeros to 56 mod 64, then the bit length. -/
def padMessage (msg : List Nat) : List Nat :=
  msg ++ [0x80] ++ List.replicate ((120 - (msg.length + 1) % 64) % 64) 0 ++ lenBytes msg.length

/-- Run SHA-256 over a byte sequence, producing the final state. -/
def sha256Words (msg : List Nat) : Hash8 :=
  let padded := padMessage msg
  let blocks := (List.range (padded.length / 64)).map
    (fun i => (padded.drop (64 * i)).take 64)
  blocks.foldl compressBlock H0

/-- The four big-endian bytes of a 32-bit word. -/
def wordBytes (x : Nat) : List Nat :=
  [(x >>> 24) % 256, (x >>> 16) % 256, (x >>> 8) % 256, x % 256]

/-- SHA-256 digest of a byte sequence, as 32 bytes. -/
def sha256 (msg : List Nat) : List Nat :=
  let st := sha256Words msg
  wordBytes st.a ++ wordBytes st.b ++ wordBytes st.c ++ wordBytes st.d ++
  wordBytes st.e ++ wordBytes st.f ++ wordBytes st.g ++ wordBytes st.h

/-- Lower-case hexadecimal digit for a value below 16. -/
def hexDigit (n : Nat) : Char :=
  if n < 10 then Char.ofNat (48 + n) else Char.ofNat (87 + n)

/-- Two hexadecimal characters of one byte. -/
def hexByte (b : Nat) : List Char := [hexDigit (b / 16), hexDigit (b % 16)]

/-- Hex-encode a byte sequence (encoding/hex EncodeToString). -/
def hexEncode (bs : List Nat) : String := String.mk ((bs.map hexByte).flatten)

/-- Hex SHA-256 digest of a byte sequence, as the Go code computes for
ETags via crypto/sha256 and hex.EncodeToString. -/
def sha256hex (msg : List Nat) : String := hexEncode (sha256 msg)

example : sha256hex [] = "e3b0c44298fc1c149afbf4c8996fb92427ae41e4649b934ca495991b7852b855" := by
  decide

example : sha256hex [104, 101, 108, 108, 111] =
    "2cf24dba5fb0a30e26e83b2ac5b9e29e1b161e5c1fa7425e73043362938b9824" := by
  decide

/-! Path parsing (store.go lines 179-199) and path resolution
(store.go lines 39-41, filepath.Join). -/

/-- strings.Trim(path, "/"): drop leading and trailing slash characters. -/
def goTrimSlashes (s : String) : String :=
  String.mk (((s.toList.dropWhile (· = '/')).reverse.dropWhile (· = '/')).reverse)

/-- strings.Split on a one-character separator: the pieces between the
occurrences of the separator, keeping empty pieces. -/
def splitOnChar (c : Char) : List Char → List (List Char)
  | [] => [[]]
  | x :: xs =>
    if x = c then [] :: splitOnChar c xs
    else
      match splitOnChar c xs with
      | r :: rs => (x :: r) :: rs
      | [] => [[x]]

/-- Join pieces back with a slash between them. -/
def joinSlash : List (List Char) → List Char
  | [] => []
  | [x] => x
  | x :: y :: rest => x ++ '/' :: joinSlash (y :: rest)

/-- strings.HasPrefix: the first argument leads the second. -/
def leadsWith : List Char → List Char → Bool
  | [], _ => true
  | _ :: _, [] => false
  | p :: ps, x :: xs => p == x && leadsWith ps xs

/-- strings.SplitN(s, "/", 2): at most two pieces, split at the first slash. -/
def goSplitN2 (s : String) : List String :=
  match splitOnChar '/' s.toList with
  | [x] => [String.mk x]
  | x :: rest => [String.mk x, String.mk (joinSlash rest)]
  | [] => [s]

/-- parsePath (store.go lines 179-199): trim slashes, split into bucket
and key, reject empty path, missing key, empty bucket or empty key. -/
def parsePath (path : String) : Except String (String × String) :=
  let p := goTrimSlashes path
  if p = "" then Except.error "missing bucket and key"
  else
    match goSplitN2 p with
    | [bucket, key] =>
      if bucket = "" then Except.error "empty bucket name"
      else if key = "" then Except.error "empty key name"
      else Except.ok (bucket, key)
    | _ => Except.error "missing key"

/-- Split a path string into its slash-separated segments. -/
def splitSlash (s : String) : List String :=
  (splitOnChar '/' s.toList).map String.mk

/-- The lexical cleaning filepath.Join applies to a relative path: empty
and dot segments vanish; a dotdot segment pops the previous real segment
when one exists, otherwise it survives at the front. -/
def cleanSegs (segs : List String) : List String :=
  segs.foldl
    (fun acc seg =>
      if seg = "" ∨ seg = "." then acc
      else if seg = ".." then
        match acc.getLast? with
        | none => [".."]
        | some last => if last = ".." then acc ++ [".."] else acc.dropLast
      else acc ++ [seg])
    []

/-- fullPath (store.go lines 39-41): filepath.Join(root, bucket, key),
viewed as the cleaned segment list of root/bucket/key. -/
def fullPathSegs (root bucket key : String) : List String :=
  cleanSegs (splitSlash root ++ splitSlash bucket ++ splitSlash key)

/-- Whether a resolved segment list still lies under the store root. -/
def underRoot (root : String) (segs : List String) : Bool :=
  let rootSegs := cleanSegs (splitSlash root)
  segs.take rootSegs.length == rootSegs

/-! The filesystem under the store root, as an association list from
identities to byte contents. os.Create truncates or creates the file at
its final path; os.Remove deletes it. -/

/-- An object identity: bucket and key. -/
abbrev Identity := String × String

/-- The directory tree under the store root. -/
abbrev FS := List (Identity × List Nat)

/-- The content of the file backing an identity, when it exists. -/
def fsLookup (s : FS) (id : Identity) : Option (List Nat) :=
  (s.find? (fun e => e.1 == id)).map (·.2)

/-- Remove the file backing an identity (os.Remove). -/
def fsErase (s : FS) (id : Identity) : FS :=
  s.filter (fun e => e.1 != id)

/-- Create or replace the file backing an identity (os.Create + write). -/
def fsInsert (s : FS) (id : Identity) (content : List Nat) : FS :=
  (id, content) :: fsErase s id

/-! Request handlers. I/O failures other than file absence are modelled
only where a claim depends on them: the digest pass of calculateETag may
fail (readOk), and the body copy of handlePut may fail (Body.failCopy).
Time-valued headers (Last-Modified) are outside the model. -/

/-- strconv.ParseInt(s, 10, 64): optional sign, decimal digits, error on
empty digits, stray characters or 64-bit overflow. `none` is a non-nil
error in the Go code. -/
def goParseInt64 (s : String) : Option Int :=
  let digits : List Char → Option Nat := fun l =>
    match l with
    | [] => none
    | _ => l.foldl
        (fun acc c => acc.bind (fun n =>
          if '0' ≤ c ∧ c ≤ '9' then some (n * 10 + (c.toNat - 48)) else none))
        (some 0)
  match s.toList with
  | '+' :: rest => (digits rest).bind
      (fun n => if n ≤ 9223372036854775807 then some (n : Int) else none)
  | '-' :: rest => (digits rest).bind
      (fun n => if n ≤ 9223372036854775808 then some (-(n : Int)) else none)
  | l => (digits l).bind
      (fun n => if n ≤ 9223372036854775807 then some (n : Int) else none)

/-- The response of handleRangeRequest: status, Content-Length and
Content-Range headers, the http.Error message when any, and body bytes. -/
structure RangeResult where
  status : Nat
  contentLength : Option String
  contentRange : Option String
  message : Option String
  body : List Nat
deriving DecidableEq

/-- An http.Error response of handleRangeRequest with status 400. -/
def badRange (msg : String) : RangeResult :=
  ⟨400, none, none, some msg, []⟩

/-- Bound validation and serving (store.go lines 249-266), after both
bounds are known: unsatisfiable ranges get 416 with a bytes star slash
total Content-Range; otherwise the end is clamped to size minus one and
end minus start plus one bytes from offset start are served with 206. -/
def applyRange (content : List Nat) (start e : Int) : RangeResult :=
  let fileSize : Int := content.length
  if start > e ∨ start ≥ fileSize then
    ⟨416, none, some ("bytes */" ++ toString fileSize), some "range not satisfiable", []⟩
  else
    let e2 := if e ≥ fileSize then fileSize - 1 else e
    let len := e2 - start + 1
    ⟨206, some (toString len),
     some ("bytes " ++ toString start ++ "-" ++ toString e2 ++ "/" ++ toString fileSize),
     none,
     (content.drop start.toNat).take len.toNat⟩

/-- The start bound (store.go lines 231-237): an empty field leaves the
int64 zero value; otherwise it must parse as a non-negative integer. -/
def parseStartBound (p0 : String) : Option Int :=
  if p0 = "" then some 0
  else
    match goParseInt64 p0 with
    | none => none
    | some v => if v < 0 then none else some v

/-- The end bound (store.go lines 239-247): an empty field means file
size minus one; otherwise it must parse as a non-negative integer. -/
def parseEndBound (fileSize : Int) (p1 : String) : Option Int :=
  if p1 = "" then some (fileSize - 1)
  else
    match goParseInt64 p1 with
    | none => none
    | some v => if v < 0 then none else some v

/-- handleRangeRequest (store.go lines 214-266): require the bytes=
scheme, split the spec on the dash into exactly two fields, parse the
two bounds, then validate and serve. -/
def handleRangeRequest (content : List Nat) (rangeHeader : String) : RangeResult :=
  if leadsWith "bytes=".toList rangeHeader.toList then
    match (splitOnChar '-' (rangeHeader.toList.drop 6)).map String.mk with
    | [p0, p1] =>
      match parseStartBound p0 with
      | none => badRange "invalid range start"
      | some start =>
        match parseEndBound (content.length : Int) p1 with
        | none => badRange "invalid range end"
        | some e => applyRange content start e
    | _ => badRange "invalid range format"
  else badRange "invalid range header"

/-- calculateETag (store.go lines 201-212): a fresh digest pass over the
file bytes; when the read into the hasher fails the function returns the
empty string and the caller skips the ETag header. `readOk` models
whether that io.Copy succeeds. -/
def calculateETag (readOk : Bool) (content : List Nat) : String :=
  if readOk then sha256hex content else ""

/-- The response of handleGet. -/
structure GetResult where
  status : Nat
  contentLength : Option String
  contentRange : Option String
  etag : Option String
  body : List Nat
deriving DecidableEq

/-- handleGet (store.go lines 78-121): parse the path, open the file
(absent gives 404), set Content-Length, set the quoted ETag header only
when calculateETag returned a non-empty digest, then either dispatch a
non-empty Range header to handleRangeRequest or serve the full content
with status 200. -/
def handleGet (s : FS) (p : String) (rangeHeader : String) (readOk : Bool) : GetResult :=
  match parsePath p with
  | Except.error _ => ⟨400, none, none, none, []⟩
  | Except.ok (b, k) =>
    match fsLookup s (b, k) with
    | none => ⟨404, none, none, none, []⟩
    | some content =>
      let e := calculateETag readOk content
      let etagHdr := if e ≠ "" then some ("\"" ++ e ++ "\"") else none
      if rangeHeader ≠ "" then
        let rr := handleRangeRequest content rangeHeader
        ⟨rr.status, rr.contentLength, rr.contentRange, etagHdr, rr.body⟩
      else
        ⟨200, some (toString content.length), none, etagHdr, content⟩

/-- The response of handleHead: headers as handleGet, no body. -/
structure HeadResult where
  status : Nat
  contentLength : Option String
  etag : Option String
deriving DecidableEq

/-- handleHead (store.go lines 123-157): same path, lookup and header
computation as handleGet, no body and no range handling. -/
def handleHead (s : FS) (p : String) (readOk : Bool) : HeadResult :=
  match parsePath p with
  | Except.error _ => ⟨400, none, none⟩
  | Except.ok (b, k) =>
    match fsLookup s (b, k) with
    | none => ⟨404, none, none⟩
    | some content =>
      let e := calculateETag readOk content
      ⟨200, some (toString content.length), if e ≠ "" then some ("\"" ++ e ++ "\"") else none⟩

/-- The request body seen by handlePut: either the full content arrives,
or io.Copy fails after some bytes were already written to the file. -/
inductive Body where
  | ok (content : List Nat)
  | failCopy (written : List Nat)
deriving DecidableEq

/-- The response of handlePut, together with the filesystem it leaves. -/
structure PutResult where
  state : FS
  status : Nat
  etag : Option String
deriving DecidableEq

/-- handlePut (store.go lines 43-76): parse the path, create the file at
its final path, stream the body into the file and the hasher; on a copy
failure remove the file and answer 500, on success answer 200 with the
hex digest of the bytes written. MkdirAll and os.Create failures are
not modelled (no claim depends on them). -/
def handlePut (s : FS) (p : String) (body : Body) : PutResult :=
  match parsePath p with
  | Except.error _ => ⟨s, 400, none⟩
  | Except.ok (b, k) =>
    match body with
    | Body.ok content => ⟨fsInsert s (b, k) content, 200, some (sha256hex content)⟩
    | Body.failCopy _written => ⟨fsErase s (b, k), 500, none⟩

/-- handleDelete (store.go lines 159-177): remove the file, 204 when it
existed, 404 when not. -/
def handleDelete (s : FS) (p : String) : FS × Nat :=
  match parsePath p with
  | Except.error _ => (s, 400)
  | Except.ok (b, k) =>
    match fsLookup s (b, k) with
    | none => (s, 404)
    | some _ => (fsErase s (b, k), 204)

/-- The filesystem states a concurrent reader can observe while
handlePut streams a body that arrives as the given chunks: os.Create
first truncates the destination at its final path, then io.Copy appends
chunk after chunk, so every intermediate concatenation is visible. -/
def putVisibleStates (s : FS) (id : Identity) (chunks : List (List Nat)) : List FS :=
  (List.range (chunks.length + 1)).map (fun i => fsInsert s id ((chunks.take i).flatten))

/-! Helper lemmas. -/

/-- Hex encoding of a non-empty byte sequence is a non-empty string. -/
theorem hexEncode_cons_ne (b : Nat) (bs : List Nat) : hexEncode (b :: bs) ≠ "" := by
  intro hcontra
  have h2 := congrArg String.data hcontra
  simp [hexEncode, hexByte] at h2

/-- The hex digest is never the empty string, so the ETag header is set
whenever the digest pass succeeds. -/
theorem sha256hex_ne_empty (msg : List Nat) : sha256hex msg ≠ "" := by
  simp only [sha256hex, sha256, wordBytes, List.cons_append]
  exact hexEncode_cons_ne _ _

/-- Looking up an identity right after writing it yields the content
just written. -/
theorem fsLookup_insert (s : FS) (id : Identity) (c : List Nat) :
    fsLookup (fsInsert s id c) id = some c := by
  unfold fsLookup fsInsert
  rw [List.find?_cons_of_pos]
  · rfl
  · simp

/-- Looking up an identity right after removing it yields nothing. -/
theorem fsLookup_erase (s : FS) (id : Identity) :
    fsLookup (fsErase s id) id = none := by
  induction s with
  | nil => rfl
  | cons hd t ih =>
    by_cases h : hd.1 == id
    · simp only [fsErase, List.filter_cons, bne, h, Bool.not_true, if_false]
      exact ih
    · simp only [fsErase, List.filter_cons, bne, h, Bool.not_false, if_true]
      simp only [fsLookup, List.find?, h] at ih ⊢
      exact ih

/-- A Range header carrying the bytes= scheme is not the empty string,
so handleGet dispatches it to handleRangeRequest. -/
theorem leadsWith_bytes_ne_empty (rh : String)
    (hpre : leadsWith "bytes=".toList rh.toList = true) : rh ≠ "" := by
  intro hcontra
  subst hcontra
  exact absurd hpre (by decide)

/-- On an existing object, a non-empty Range header is dispatched to
handleRangeRequest; the ETag header computed beforehand accompanies the
range response. -/
theorem handleGet_range_dispatch (s : FS) (p b k rh : String) (content : List Nat)
    (readOk : Bool) (hp : parsePath p = Except.ok (b, k))
    (hc : fsLookup s (b, k) = some content) (hrh : rh ≠ "") :
    handleGet s p rh readOk =
      ⟨(handleRangeRequest content rh).status,
       (handleRangeRequest content rh).contentLength,
       (handleRangeRequest content rh).contentRange,
       (if calculateETag readOk content ≠ ""
        then some ("\"" ++ calculateETag readOk content ++ "\"") else none),
       (handleRangeRequest content rh).body⟩ := by
  simp only [handleGet, hp, hc]
  rw [if_pos hrh]

/-- When the header carries the bytes= scheme, splits into exactly two
fields, and both bounds resolve, handleRangeRequest reduces to the
bound validation and serving step. -/
theorem handleRangeRequest_parsed (content : List Nat) (rh p0 p1 : String)
    (start e : Int)
    (hpre : leadsWith "bytes=".toList rh.toList = true)
    (hsplit : (splitOnChar '-' (rh.toList.drop 6)).map String.mk = [p0, p1])
    (hs : parseStartBound p0 = some start)
    (he : parseEndBound (content.length : Int) p1 = some e) :
    handleRangeRequest content rh = applyRange content start e := by
  simp only [handleRangeRequest, hpre, if_true, hsplit, hs, he]

/-! Claim theorems. -/

/-- C1: the claim asserts that path resolution rejects keys with
dotdot-style traversal segments and that every resolved path lies under
the store root. The code does neither: parsePath accepts the request
path /b/../../etc/passwd (so it is dispatched, not rejected with
InvalidPath), and fullPath resolves it via filepath.Join to etc/passwd,
outside the ./data root the server is constructed with. -/
theorem traversal_key_dispatched_outside_root :
    parsePath "/b/../../etc/passwd" = Except.ok ("b", "../../etc/passwd") ∧
    fullPathSegs "./data" "b" "../../etc/passwd" = ["etc", "passwd"] ∧
    underRoot "./data" (fullPathSegs "./data" "b" "../../etc/passwd") = false :=
  ⟨rfl, rfl, rfl⟩

/-- C4: the claim asserts that a range header with an empty start bound
and non-empty end bound, such as bytes=-5, is rejected with status 400.
The code instead leaves the int64 zero value in start, so on a 10-byte
object bytes=-5 is served as a 206 of bytes 0 through 5 — a suffix
range is neither rejected nor given suffix semantics. -/
theorem suffix_range_served_not_rejected :
    handleRangeRequest [0, 1, 2, 3, 4, 5, 6, 7, 8, 9] "bytes=-5" =
      ⟨206, some "6", some "bytes 0-5/10", none, [0, 1, 2, 3, 4, 5]⟩ ∧
    (handleGet [(("b", "k"), [0, 1, 2, 3, 4, 5, 6, 7, 8, 9])] "/b/k" "bytes=-5" true).status
      = 206 :=
  ⟨rfl, rfl⟩

/-- C8: the claim asserts that a store writes to a temporary location
and atomically renames into place, so a concurrent retrieve never sees
a half-written object. The code creates the destination at its final
path and streams into it, so between the chunks of a two-chunk body a
concurrent retrieve of the same identity answers 200 with only the
first chunk as body — a state that is neither absence nor the full
content. The last visible state is the final state of handlePut. -/
theorem inplace_put_midwrite_observable :
    (putVisibleStates [] ("b", "k") [[104, 101], [108, 108, 111]])[1]!
      = fsInsert [] ("b", "k") [104, 101] ∧
    (handleGet (fsInsert [] ("b", "k") [104, 101]) "/b/k" "" true).status = 200 ∧
    (handleGet (fsInsert [] ("b", "k") [104, 101]) "/b/k" "" true).body = [104, 101] ∧
    [104, 101] ≠ [104, 101, 108, 108, 111] ∧
    (putVisibleStates [] ("b", "k") [[104, 101], [108, 108, 111]])[2]!
      = (handlePut [] "/b/k" (Body.ok [104, 101, 108, 108, 111])).state := by
  exact ⟨rfl, rfl, rfl, by decide, rfl⟩

/-- Evaluation of a successful store and of a retrieve of the state it
leaves: the store replaces the object and answers 200 with the digest
of the bytes written; the retrieve answers 200 with the stored content
and the quoted digest. Shared by the round-trip theorems. -/
theorem put_get_eval (s : FS) (p b k : String) (content : List Nat)
    (hp : parsePath p = Except.ok (b, k)) :
    handlePut s p (Body.ok content) =
      ⟨fsInsert s (b, k) content, 200, some (sha256hex content)⟩ ∧
    handleGet (fsInsert s (b, k) content) p "" true =
      ⟨200, some (toString content.length), none,
       some ("\"" ++ sha256hex content ++ "\""), content⟩ := by
  constructor
  · simp only [handlePut, hp]
  · have h1 : calculateETag true content = sha256hex content := rfl
    simp only [handleGet, hp, fsLookup_insert, h1]
    rw [if_neg (show ¬("" : String) ≠ "" from fun hcontra => hcontra rfl),
        if_pos (sha256hex_ne_empty content)]

/-- C9: every store request whose path carries a valid identity and
whose body is empty succeeds with status 200 and the hex SHA-256 of
the empty byte sequence as its etag, and a subsequent retrieve of that
identity answers 200 with Content-Length 0 and an empty body —
whatever the filesystem already held at that or any other identity. -/
theorem empty_object_roundtrip (s : FS) (p b k : String)
    (hp : parsePath p = Except.ok (b, k)) :
    (handlePut s p (Body.ok [])).status = 200 ∧
    (handlePut s p (Body.ok [])).etag =
      some "e3b0c44298fc1c149afbf4c8996fb92427ae41e4649b934ca495991b7852b855" ∧
    (handleGet (handlePut s p (Body.ok [])).state p "" true).status = 200 ∧
    (handleGet (handlePut s p (Body.ok [])).state p "" true).contentLength
      = some "0" ∧
    (handleGet (handlePut s p (Body.ok [])).state p "" true).body = [] := by
  obtain ⟨hput, hget⟩ := put_get_eval s p b k [] hp
  rw [hput, hget]
  exact ⟨rfl, rfl, rfl, rfl, rfl⟩

/-- C9 witness: an empty body stored at /b/k over a filesystem that
already holds a non-empty object at that identity. -/
theorem empty_object_roundtrip_witness :
    (handlePut [(("b", "k"), [1, 2, 3])] "/b/k" (Body.ok [])).status = 200 ∧
    (handlePut [(("b", "k"), [1, 2, 3])] "/b/k" (Body.ok [])).etag =
      some "e3b0c44298fc1c149afbf4c8996fb92427ae41e4649b934ca495991b7852b855" ∧
    (handleGet (handlePut [(("b", "k"), [1, 2, 3])] "/b/k" (Body.ok [])).state
      "/b/k" "" true).status = 200 ∧
    (handleGet (handlePut [(("b", "k"), [1, 2, 3])] "/b/k" (Body.ok [])).state
      "/b/k" "" true).contentLength = some "0" ∧
    (handleGet (handlePut [(("b", "k"), [1, 2, 3])] "/b/k" (Body.ok [])).state
      "/b/k" "" true).body = [] :=
  empty_object_roundtrip [(("b", "k"), [1, 2, 3])] "/b/k" "b" "k" rfl

/-- C2: for a path carrying a valid identity and any content, a store
answers 200 with the hex SHA-256 of the content as etag, and a retrieve
of the same path returns exactly the content, with the same hex digest
(quoted) in its ETag header. -/
theorem store_retrieve_roundtrip (s : FS) (p b k : String) (content : List Nat)
    (hp : parsePath p = Except.ok (b, k)) :
    (handlePut s p (Body.ok content)).status = 200 ∧
    (handlePut s p (Body.ok content)).etag = some (sha256hex content) ∧
    (handleGet (handlePut s p (Body.ok content)).state p "" true).status = 200 ∧
    (handleGet (handlePut s p (Body.ok content)).state p "" true).body = content ∧
    (handleGet (handlePut s p (Body.ok content)).state p "" true).etag =
      some ("\"" ++ sha256hex content ++ "\"") := by
  obtain ⟨hput, hget⟩ := put_get_eval s p b k content hp
  rw [hput, hget]
  exact ⟨rfl, rfl, rfl, rfl, rfl⟩

/-- C2 witness: the concrete scenario of the spec, storing hello at
/docs/readme.txt. -/
theorem store_retrieve_roundtrip_witness :
    (handlePut [] "/docs/readme.txt" (Body.ok [104, 101, 108, 108, 111])).status = 200 ∧
    (handlePut [] "/docs/readme.txt" (Body.ok [104, 101, 108, 108, 111])).etag =
      some (sha256hex [104, 101, 108, 108, 111]) ∧
    (handleGet (handlePut [] "/docs/readme.txt" (Body.ok [104, 101, 108, 108, 111])).state
      "/docs/readme.txt" "" true).status = 200 ∧
    (handleGet (handlePut [] "/docs/readme.txt" (Body.ok [104, 101, 108, 108, 111])).state
      "/docs/readme.txt" "" true).body = [104, 101, 108, 108, 111] ∧
    (handleGet (handlePut [] "/docs/readme.txt" (Body.ok [104, 101, 108, 108, 111])).state
      "/docs/readme.txt" "" true).etag =
      some ("\"" ++ sha256hex [104, 101, 108, 108, 111] ++ "\"") :=
  store_retrieve_roundtrip [] "/docs/readme.txt" "docs" "readme.txt"
    [104, 101, 108, 108, 111] rfl

/-- C3: a store whose body copy fails answers 500 and leaves no object
at the identity: the partially written file has been removed, and a
subsequent retrieve answers 404. -/
theorem store_failure_removes_object (s : FS) (p b k : String) (written : List Nat)
    (hp : parsePath p = Except.ok (b, k)) :
    (handlePut s p (Body.failCopy written)).status = 500 ∧
    fsLookup (handlePut s p (Body.failCopy written)).state (b, k) = none ∧
    (handleGet (handlePut s p (Body.failCopy written)).state p "" true).status = 404 := by
  have hput : handlePut s p (Body.failCopy written) = ⟨fsErase s (b, k), 500, none⟩ := by
    simp only [handlePut, hp]
  rw [hput]
  refine ⟨rfl, fsLookup_erase s (b, k), ?_⟩
  simp only [handleGet, hp, fsLookup_erase]

/-- C3 witness: a failed overwrite of an existing object removes it. -/
theorem store_failure_removes_object_witness :
    (handlePut [(("b", "k"), [1, 2, 3])] "/b/k" (Body.failCopy [9])).status = 500 ∧
    fsLookup (handlePut [(("b", "k"), [1, 2, 3])] "/b/k" (Body.failCopy [9])).state
      ("b", "k") = none ∧
    (handleGet (handlePut [(("b", "k"), [1, 2, 3])] "/b/k" (Body.failCopy [9])).state
      "/b/k" "" true).status = 404 :=
  store_failure_removes_object [(("b", "k"), [1, 2, 3])] "/b/k" "b" "k" [9] rfl

/-- C5: a retrieve of an existing object with a syntactically valid
range whose start exceeds the end or the object size answers 416, with
a Content-Range header of the exact form bytes */size reporting the
true total size. -/
theorem retrieve_range_not_satisfiable (s : FS) (p b k rh p0 p1 : String)
    (content : List Nat) (readOk : Bool) (start e : Int)
    (hp : parsePath p = Except.ok (b, k))
    (hc : fsLookup s (b, k) = some content)
    (hpre : leadsWith "bytes=".toList rh.toList = true)
    (hsplit : (splitOnChar '-' (rh.toList.drop 6)).map String.mk = [p0, p1])
    (hs : parseStartBound p0 = some start)
    (he : parseEndBound (content.length : Int) p1 = some e)
    (hcond : start > e ∨ start ≥ (content.length : Int)) :
    (handleGet s p rh readOk).status = 416 ∧
    (handleGet s p rh readOk).contentRange =
      some ("bytes */" ++ toString ((content.length : Int))) := by
  rw [handleGet_range_dispatch s p b k rh content readOk hp hc
        (leadsWith_bytes_ne_empty rh hpre),
      handleRangeRequest_parsed content rh p0 p1 start e hpre hsplit hs he]
  simp only [applyRange]
  rw [if_pos hcond]
  exact ⟨rfl, rfl⟩

/-- C5 witness: bytes=10-20 on a 5-byte object. -/
theorem retrieve_range_not_satisfiable_witness :
    (handleGet [(("b", "k"), [0, 1, 2, 3, 4])] "/b/k" "bytes=10-20" true).status = 416 ∧
    (handleGet [(("b", "k"), [0, 1, 2, 3, 4])] "/b/k" "bytes=10-20" true).contentRange =
      some "bytes */5" :=
  retrieve_range_not_satisfiable [(("b", "k"), [0, 1, 2, 3, 4])] "/b/k" "b" "k"
    "bytes=10-20" "10" "20" [0, 1, 2, 3, 4] true 10 20 rfl rfl (by decide) rfl rfl rfl
    (by decide)

/-- C6: a retrieve of an existing object with a syntactically valid
range whose start is within the object and whose end reaches past it is
served rather than rejected: the end is clamped to size minus one and
the response is a 206 through the last byte. -/
theorem retrieve_range_end_clamped (s : FS) (p b k rh p0 p1 : String)
    (content : List Nat) (readOk : Bool) (start e : Int)
    (hp : parsePath p = Except.ok (b, k))
    (hc : fsLookup s (b, k) = some content)
    (hpre : leadsWith "bytes=".toList rh.toList = true)
    (hsplit : (splitOnChar '-' (rh.toList.drop 6)).map String.mk = [p0, p1])
    (hs : parseStartBound p0 = some start)
    (he : parseEndBound (content.length : Int) p1 = some e)
    (h0 : 0 ≤ start) (hse : start ≤ e)
    (hlt : start < (content.length : Int)) (hge : e ≥ (content.length : Int)) :
    (handleGet s p rh readOk).status = 206 ∧
    (handleGet s p rh readOk).contentRange =
      some ("bytes " ++ toString start ++ "-" ++ toString ((content.length : Int) - 1)
            ++ "/" ++ toString ((content.length : Int))) ∧
    (handleGet s p rh readOk).body = content.drop start.toNat ∧
    (handleGet s p rh readOk).contentLength =
      some (toString ((content.length : Int) - start)) := by
  rw [handleGet_range_dispatch s p b k rh content readOk hp hc
        (leadsWith_bytes_ne_empty rh hpre),
      handleRangeRequest_parsed content rh p0 p1 start e hpre hsplit hs he]
  simp only [applyRange]
  rw [if_neg (show ¬(start > e ∨ start ≥ (content.length : Int)) by omega),
      if_pos hge]
  have hlen : ((content.length : Int) - 1 - start + 1) = (content.length : Int) - start := by
    omega
  rw [hlen]
  have hbody : (content.drop start.toNat).take ((content.length : Int) - start).toNat =
      content.drop start.toNat := by
    apply List.take_of_length_le
    rw [List.length_drop]
    omega
  rw [hbody]
  exact ⟨rfl, rfl, rfl, rfl⟩

/-- C6 witness: bytes=2-100 on a 5-byte object serves bytes 2 to 4. -/
theorem retrieve_range_end_clamped_witness :
    (handleGet [(("b", "k"), [0, 1, 2, 3, 4])] "/b/k" "bytes=2-100" true).status = 206 ∧
    (handleGet [(("b", "k"), [0, 1, 2, 3, 4])] "/b/k" "bytes=2-100" true).contentRange =
      some "bytes 2-4/5" ∧
    (handleGet [(("b", "k"), [0, 1, 2, 3, 4])] "/b/k" "bytes=2-100" true).body =
      [0, 1, 2, 3, 4].drop 2 ∧
    (handleGet [(("b", "k"), [0, 1, 2, 3, 4])] "/b/k" "bytes=2-100" true).contentLength =
      some "3" :=
  retrieve_range_end_clamped [(("b", "k"), [0, 1, 2, 3, 4])] "/b/k" "b" "k"
    "bytes=2-100" "2" "100" [0, 1, 2, 3, 4] true 2 100 rfl rfl (by decide) rfl rfl rfl
    (by decide) (by decide) (by decide) (by decide)

/-- C7: a retrieve of an existing object with a satisfiable in-bounds
range serves exactly end minus start plus one bytes, the slice of the
content starting at offset start, with matching Content-Length and a
Content-Range header bytes start-end/total. -/
theorem retrieve_range_within_bounds (s : FS) (p b k rh p0 p1 : String)
    (content : List Nat) (readOk : Bool) (start e : Int)
    (hp : parsePath p = Except.ok (b, k))
    (hc : fsLookup s (b, k) = some content)
    (hpre : leadsWith "bytes=".toList rh.toList = true)
    (hsplit : (splitOnChar '-' (rh.toList.drop 6)).map String.mk = [p0, p1])
    (hs : parseStartBound p0 = some start)
    (he : parseEndBound (content.length : Int) p1 = some e)
    (h0 : 0 ≤ start) (hse : start ≤ e) (hlt : e < (content.length : Int)) :
    (handleGet s p rh readOk).status = 206 ∧
    (handleGet s p rh readOk).contentLength = some (toString (e - start + 1)) ∧
    (handleGet s p rh readOk).contentRange =
      some ("bytes " ++ toString start ++ "-" ++ toString e
            ++ "/" ++ toString ((content.length : Int))) ∧
    (handleGet s p rh readOk).body =
      (content.drop start.toNat).take (e - start + 1).toNat ∧
    (handleGet s p rh readOk).body.length = (e - start + 1).toNat := by
  rw [handleGet_range_dispatch s p b k rh content readOk hp hc
        (leadsWith_bytes_ne_empty rh hpre),
      handleRangeRequest_parsed content rh p0 p1 start e hpre hsplit hs he]
  simp only [applyRange]
  rw [if_neg (show ¬(start > e ∨ start ≥ (content.length : Int)) by omega),
      if_neg (show ¬(e ≥ (content.length : Int)) by omega)]
  refine ⟨rfl, rfl, rfl, rfl, ?_⟩
  simp only [List.length_take, List.length_drop]
  omega

/-- C7 witness: the concrete scenario of the spec, bytes=1-3 of hello. -/
theorem retrieve_range_within_bounds_witness :
    (handleGet [(("docs", "readme.txt"), [104, 101, 108, 108, 111])] "/docs/readme.txt"
      "bytes=1-3" true).status = 206 ∧
    (handleGet [(("docs", "readme.txt"), [104, 101, 108, 108, 111])] "/docs/readme.txt"
      "bytes=1-3" true).contentLength = some "3" ∧
    (handleGet [(("docs", "readme.txt"), [104, 101, 108, 108, 111])] "/docs/readme.txt"
      "bytes=1-3" true).contentRange = some "bytes 1-3/5" ∧
    (handleGet [(("docs", "readme.txt"), [104, 101, 108, 108, 111])] "/docs/readme.txt"
      "bytes=1-3" true).body = ([104, 101, 108, 108, 111].drop 1).take 3 ∧
    (handleGet [(("docs", "readme.txt"), [104, 101, 108, 108, 111])] "/docs/readme.txt"
      "bytes=1-3" true).body.length = 3 :=
  retrieve_range_within_bounds [(("docs", "readme.txt"), [104, 101, 108, 108, 111])]
    "/docs/readme.txt" "docs" "readme.txt" "bytes=1-3" "1" "3"
    [104, 101, 108, 108, 111] true 1 3 rfl rfl (by decide) rfl rfl rfl
    (by decide) (by decide) (by decide)

/-- C10: on an existing object, retrieve and probe answer 200 whether
or not the digest pass over the file succeeds, and their ETag header is
set exactly when it does: a failed digest pass is silently discarded,
never surfaced as a server error. -/
theorem etag_iff_digest_pass (s : FS) (p b k : String) (content : List Nat)
    (readOk : Bool)
    (hp : parsePath p = Except.ok (b, k)) (hc : fsLookup s (b, k) = some content) :
    (handleGet s p "" readOk).status = 200 ∧
    (handleHead s p readOk).status = 200 ∧
    ((handleGet s p "" readOk).etag.isSome ↔ readOk = true) ∧
    ((handleHead s p readOk).etag.isSome ↔ readOk = true) := by
  cases readOk with
  | true =>
    have h1 : calculateETag true content = sha256hex content := rfl
    simp only [handleGet, handleHead, hp, hc, h1]
    rw [if_neg (show ¬("" : String) ≠ "" from fun hcontra => hcontra rfl)]
    simp [sha256hex_ne_empty content]
  | false =>
    have h1 : calculateETag false content = "" := rfl
    simp only [handleGet, handleHead, hp, hc, h1]
    rw [if_neg (show ¬("" : String) ≠ "" from fun hcontra => hcontra rfl)]
    simp

/-- C10 witness: a failed digest pass still yields 200 with no ETag. -/
theorem etag_iff_digest_pass_witness :
    (handleGet [(("b", "k"), [1, 2, 3])] "/b/k" "" false).status = 200 ∧
    (handleHead [(("b", "k"), [1, 2, 3])] "/b/k" false).status = 200 ∧
    ((handleGet [(("b", "k"), [1, 2, 3])] "/b/k" "" false).etag.isSome ↔ false = true) ∧
    ((handleHead [(("b", "k"), [1, 2, 3])] "/b/k" false).etag.isSome ↔ false = true) :=
  etag_iff_digest_pass [(("b", "k"), [1, 2, 3])] "/b/k" "b" "k" [1, 2, 3] false rfl rfl

end MiniS3
